import Mathlib

/-!
Shallow embedding of the HLS stream proxy (`main.py`) and verification of its
specification claims.

Modelling conventions:
* Python wall-clock times (`time.time()`) are integers (`Int`); only
  differences and comparisons matter to the program.
* Python `dict` (insertion-ordered, key-unique) is an association list with
  replace-on-insert semantics (`dictGet` / `dictInsert`).
* Network I/O is an oracle argument: each HTTP attempt either raises an
  exception (`NetResult.exn`) or yields a response with a status code and a
  body.  `fetch_with_retry`'s per-attempt outcomes come from an oracle
  indexed by attempt number.
* Python `str` values manipulated character-by-character by the playlist
  rewriter are `List Char` (`PyStr`); keys, URLs and bodies elsewhere are
  Lean `String`.
* Stateful handlers are pure functions from (state, oracles) to
  (response, new state); local mutable variables (the fetcher's `errors`
  list, its sleep calls) become explicit fields of a trace structure so that
  theorems can speak about them.
-/

/-- `CACHE_EXPIRY = 120` seconds (main.py line 34). -/
def CACHE_EXPIRY : Int := 120

/-- `PLAYLIST_REFRESH_INTERVAL = 5` seconds (main.py line 35). -/
def PLAYLIST_REFRESH_INTERVAL : Int := 5

/-- `MAX_RETRIES = 3` (main.py line 36). -/
def MAX_RETRIES : Nat := 3

/-- `SEGMENT_BASE_URL` (main.py line 53). -/
def SEGMENT_BASE_URL : String := "https://myww1.ruscfd.lat"

/-- `DIRECT_STREAM_URLS` (main.py lines 47-50). -/
def DIRECT_STREAM_URLS : List String :=
  ["https://redx.embedxt.site/index.m3u8", "https://myww1.ruscfd.lat/hls/live2.m3u8"]

/-- Python `dict` lookup `d[k]` / `k in d`, on an insertion-ordered
association list with unique keys. -/
def dictGet {α : Type} (d : List (String × α)) (k : String) : Option α :=
  match d with
  | [] => none
  | (k2, v) :: rest => if k2 = k then some v else dictGet rest k

/-- Python `dict` assignment `d[k] = v`: replaces the value if the key is
present, otherwise appends the pair. -/
def dictInsert {α : Type} (d : List (String × α)) (k : String) (v : α) :
    List (String × α) :=
  match d with
  | [] => [(k, v)]
  | (k2, v2) :: rest =>
    if k2 = k then (k, v) :: rest else (k2, v2) :: dictInsert rest k v

/-- An `httpx` response as the program observes it: status code, body
(`.text` / `.content`), and the optional `content-type` header. -/
structure HResponse where
  status_code : Nat
  body : String
  content_type : Option String
deriving DecidableEq

/-- Outcome of one HTTP attempt: either the client raised an exception
(caught by the program's `except` blocks) or a response arrived. -/
inductive NetResult where
  | exn (msg : String)
  | resp (status_code : Nat) (text : String)
deriving DecidableEq

/-- Outcome of one attempt inside `fetch_with_retry`, as an oracle value. -/
inductive AttemptResult where
  | ok (response : HResponse)
  | exn (msg : String)
deriving DecidableEq

/-- An attempt fails when it raises or returns a non-200 status
(main.py line 152: only `status_code == 200` is success). -/
def isFailure : AttemptResult → Bool
  | .ok r => decide (r.status_code ≠ 200)
  | .exn _ => true

/-- The error message `fetch_with_retry` records for a failed attempt
(main.py lines 156 and 161). -/
def attemptReason : AttemptResult → String
  | .ok r => "Status code: " ++ toString r.status_code
  | .exn m => "Error: " ++ m

/-- Full observable trace of one `fetch_with_retry` call: the returned value,
the local `errors` list, the number of attempts made, and the sequence of
sleep durations (seconds) executed between attempts. -/
structure FetchTrace where
  result : Option HResponse
  errors : List String
  attemptsMade : Nat
  delays : List Nat
deriving DecidableEq

/-- The retry loop of `fetch_with_retry` (main.py lines 144-170), unrolled by
structural recursion on the number of remaining attempts; `attempt` is the
0-based loop index.  Success returns at once; a failed attempt records its
reason and, when it is not the last attempt, sleeps 1 second
(`await asyncio.sleep(1)`, line 167). -/
def fetchGo (oracle : Nat → AttemptResult) (attempts : Nat) :
    Nat → Nat → List String → List Nat → FetchTrace
  | 0, attempt, errors, delays => ⟨none, errors, attempt, delays⟩
  | remaining + 1, attempt, errors, delays =>
    match oracle attempt with
    | .ok response =>
      if response.status_code = 200 then
        ⟨some response, errors, attempt + 1, delays⟩
      else
        fetchGo oracle attempts remaining (attempt + 1)
          (errors ++ ["Status code: " ++ toString response.status_code])
          (if attempt < attempts - 1 then delays ++ [1] else delays)
    | .exn e =>
      fetchGo oracle attempts remaining (attempt + 1)
        (errors ++ ["Error: " ++ e])
        (if attempt < attempts - 1 then delays ++ [1] else delays)

/-- One full run of `fetch_with_retry`'s loop with its initial state
(`errors = []`, no sleeps yet). -/
def fetch_run (oracle : Nat → AttemptResult) (attempts : Nat) : FetchTrace :=
  fetchGo oracle attempts attempts 0 [] []

/-- `fetch_with_retry` (main.py lines 136-170): returns the successful
response, or `None` after exhausting all attempts.  The local `errors` list
and the sleeps are visible only through `fetch_run`. -/
def fetch_with_retry (oracle : Nat → AttemptResult) (attempts : Nat) :
    Option HResponse :=
  (fetch_run oracle attempts).result

/-- A Python `str` manipulated character-wise. -/
abbrev PyStr := List Char

/-- Python `s.split(sep)` for a one-character separator: splits at every
occurrence, keeping empty pieces; `"".split(sep) = [""]`. -/
def pySplit (sep : Char) : PyStr → List PyStr
  | [] => [[]]
  | c :: rest =>
    match pySplit sep rest with
    | [] => [[]]
    | h :: t => if c = sep then [] :: h :: t else (c :: h) :: t

/-- Python `sep.join(parts)` for a one-character separator. -/
def pyJoin (sep : Char) : List PyStr → PyStr
  | [] => []
  | [l] => l
  | l :: l2 :: rest => l ++ sep :: pyJoin sep (l2 :: rest)

/-- Python `s.strip()`: removes leading and trailing whitespace. -/
def pyStrip (s : PyStr) : PyStr :=
  ((s.dropWhile Char.isWhitespace).reverse.dropWhile Char.isWhitespace).reverse

/-- Python `s.startswith(p)`. -/
def pyStartsWith (p s : PyStr) : Bool :=
  List.isPrefixOf p s

/-- Python `xs[-1]` on a nonempty list (`str.split` never returns `[]`). -/
def pyLast (xs : List PyStr) : PyStr :=
  xs.getLastD []

/-- The body of the playlist rewrite loop (main.py lines 232-248) applied to
one line: directive lines (`#...`) and lines that are blank after stripping
pass through; a line starting with `http` becomes a proxy URL built from the
last `/`-separated component of the stripped line; any other non-blank line
becomes a proxy URL built from the whole stripped line. -/
def rewrite_playlist_line (line : PyStr) : PyStr :=
  if pyStartsWith ("#".toList) line then
    line
  else if pyStartsWith ("http".toList) line then
    "/proxy/segment/".toList ++ pyLast (pySplit '/' (pyStrip line))
  else if pyStrip line ≠ [] && !(pyStartsWith ("#".toList) line) then
    "/proxy/segment/".toList ++ pyStrip line
  else
    line

/-- The playlist rewrite of `proxy_main_playlist` (main.py lines 229-250):
`content.split('\n')`, rewrite each line, `'\n'.join(...)`. -/
def rewrite_playlist (content : PyStr) : PyStr :=
  pyJoin '\n' ((pySplit '\n' content).map rewrite_playlist_line)

/-- A `segment_cache` entry (main.py lines 319-323). -/
structure SegEntry where
  content : String
  content_type : String
  timestamp : Int
deriving DecidableEq

/-- A `playlist_cache` entry (main.py lines 253-256). -/
structure PlaylistEntry where
  content : String
  timestamp : Int
deriving DecidableEq

/-- The response a handler returns: HTTP status, body, optional media type. -/
structure HandlerResponse where
  status_code : Nat
  body : String
  media_type : Option String
deriving DecidableEq

/-- The segment cache freshness test of `proxy_segment` (main.py line 291):
`segment_id in segment_cache and now - timestamp <= CACHE_EXPIRY`. -/
def segment_cache_hit (cache : List (String × SegEntry)) (segment_id : String)
    (now : Int) : Bool :=
  match dictGet cache segment_id with
  | some e => decide (now - e.timestamp ≤ CACHE_EXPIRY)
  | none => false

/-- The playlist refresh test of `proxy_main_playlist` (main.py lines
182-185): refresh when `"main"` is absent or its entry is older than
`PLAYLIST_REFRESH_INTERVAL`. -/
def refresh_needed (cache : List (String × PlaylistEntry)) (now : Int) : Bool :=
  match dictGet cache "main" with
  | some e => decide (now - e.timestamp > PLAYLIST_REFRESH_INTERVAL)
  | none => true

/-- The cache-miss tail of `proxy_segment` (main.py lines 299-336): fetch the
segment with `fetch_with_retry`; on success store it in the cache and serve
it; on failure return the 503 error response.  Returns the response and the
segment cache after the call. -/
def proxy_segment_fetch (cache : List (String × SegEntry)) (segment_id : String)
    (now : Int) (oracle : Nat → AttemptResult) :
    HandlerResponse × List (String × SegEntry) :=
  match fetch_with_retry oracle MAX_RETRIES with
  | some response =>
    let content_type := response.content_type.getD "application/octet-stream"
    (⟨200, response.body, some content_type⟩,
      dictInsert cache segment_id ⟨response.body, content_type, now⟩)
  | none => (⟨503, "Failed to get segment", none⟩, cache)

/-- `proxy_segment` (main.py lines 283-336), composing the cache test and the
fetch-or-503 tail. -/
def proxy_segment (cache : List (String × SegEntry)) (segment_id : String)
    (now : Int) (oracle : Nat → AttemptResult) :
    HandlerResponse × List (String × SegEntry) :=
  match dictGet cache segment_id with
  | some e =>
    if now - e.timestamp ≤ CACHE_EXPIRY then
      (⟨200, e.content, some e.content_type⟩, cache)
    else
      proxy_segment_fetch cache segment_id now oracle
  | none => proxy_segment_fetch cache segment_id now oracle

/-- The `stream_url_cache` global (main.py line 41): `url` is `None` or a
string, plus a timestamp. -/
structure StreamUrlCache where
  url : Option String
  timestamp : Int
deriving DecidableEq

/-- Python truthiness of a `str`-or-`None` value: `None` and `""` are falsy. -/
def truthyStr : Option String → Bool
  | none => false
  | some s => decide (s ≠ "")

/-- The direct-URL loop of `find_working_stream_url` (main.py lines 93-103):
try each URL in order; an exception skips to the next; a 200 whose body
starts with `#EXTM3U` wins. -/
def tryDirect (directO : Nat → NetResult) : List String → Nat → Option String
  | [], _ => none
  | url :: rest, i =>
    match directO i with
    | .exn _ => tryDirect directO rest (i + 1)
    | .resp status text =>
      if status = 200 && text.startsWith "#EXTM3U" then some url
      else tryDirect directO rest (i + 1)

/-- `find_working_stream_url` (main.py lines 84-134).  Oracles: `directO i`
is the response to the `i`-th direct URL; `iframeO` the response to the
iframe fetch; `extractO html` the result of
`extract_stream_url_from_iframe(html)` (a BeautifulSoup scrape, modelled as
an oracle returning `None` or a string); `verifyO u` the response to the
verification fetch of the extracted URL `u`.  Every Python return statement
returns a string; the function ends with `return DIRECT_STREAM_URLS[0]`. -/
def find_working_stream_url (cache : StreamUrlCache) (now : Int)
    (directO : Nat → NetResult) (iframeO : NetResult)
    (extractO : String → Option String) (verifyO : String → NetResult) :
    String × StreamUrlCache :=
  if truthyStr cache.url && decide (now - cache.timestamp < 300) then
    (cache.url.getD "", cache)
  else
    match tryDirect directO DIRECT_STREAM_URLS 0 with
    | some url => (url, ⟨some url, now⟩)
    | none =>
      match iframeO with
      | .exn _ => (DIRECT_STREAM_URLS.headD "", cache)
      | .resp status html =>
        if status = 200 then
          match extractO html with
          | some stream_url =>
            if stream_url ≠ "" then
              match verifyO stream_url with
              | .exn _ => (DIRECT_STREAM_URLS.headD "", cache)
              | .resp vstatus vtext =>
                if vstatus = 200 && vtext.startsWith "#EXTM3U" then
                  (stream_url, ⟨some stream_url, now⟩)
                else (DIRECT_STREAM_URLS.headD "", cache)
            else (DIRECT_STREAM_URLS.headD "", cache)
          | none => (DIRECT_STREAM_URLS.headD "", cache)
        else (DIRECT_STREAM_URLS.headD "", cache)

/-- The guard of the 503 branch in `proxy_main_playlist` (main.py line 193):
Python `not stream_url` on the string returned by
`find_working_stream_url`. -/
def playlist_url_guard (stream_url : String) : Bool :=
  decide (stream_url = "")

/-- A sequence of segment requests: each call passes the cache on to the
next.  This is the only way `segment_cache` evolves in the program — there is
no other write and no delete anywhere in main.py. -/
def runSegmentRequests (cache : List (String × SegEntry)) :
    List (String × Int × (Nat → AttemptResult)) → List (String × SegEntry)
  | [] => cache
  | (segment_id, now, oracle) :: rest =>
    runSegmentRequests (proxy_segment cache segment_id now oracle).2 rest

/-- Modelled from the spec: the retry delays the spec prescribes — attempt
`k` waits `k × baseDelay` seconds before the next try, over `attempts - 1`
waits.  Stated only for comparison with the delays the code produces. -/
def specLinearDelays (baseDelay attempts : Nat) : List Nat :=
  (List.range (attempts - 1)).map (fun k => (k + 1) * baseDelay)

/-- A direct-URL probe that does not win the `find_working_stream_url` loop:
it raised, or its status/body fails the `200` + `#EXTM3U` test. -/
def directFailed : NetResult → Prop
  | .exn _ => True
  | .resp status text => (decide (status = 200) && text.startsWith "#EXTM3U") = false

lemma fetchGo_result_200 (oracle : Nat → AttemptResult) (attempts : Nat) :
    ∀ (remaining attempt : Nat) (errs : List String) (dls : List Nat)
      (r : HResponse),
      (fetchGo oracle attempts remaining attempt errs dls).result = some r →
      r.status_code = 200 := by
  intro remaining
  induction remaining with
  | zero => intro attempt errs dls r h; simp [fetchGo] at h
  | succ m ih =>
    intro attempt errs dls r h
    cases horacle : oracle attempt with
    | ok response =>
      simp only [fetchGo, horacle] at h
      by_cases h200 : response.status_code = 200
      · rw [if_pos h200] at h
        simp at h
        rw [← h]
        exact h200
      · rw [if_neg h200] at h
        exact ih _ _ _ _ h
    | exn e =>
      simp only [fetchGo, horacle] at h
      exact ih _ _ _ _ h

lemma fetchGo_allFail (oracle : Nat → AttemptResult) (attempts : Nat)
    (hf : ∀ k, isFailure (oracle k) = true) :
    ∀ (remaining attempt : Nat) (errs : List String) (dls : List Nat),
      fetchGo oracle attempts remaining attempt errs dls =
        ⟨none,
         errs ++ (List.range remaining).map
           (fun j => attemptReason (oracle (attempt + j))),
         attempt + remaining,
         dls ++ (List.range remaining).filterMap
           (fun j => if attempt + j < attempts - 1 then some (1 : Nat) else none)⟩ := by
  intro remaining
  induction remaining with
  | zero => intro attempt errs dls; simp [fetchGo]
  | succ m ih =>
    intro attempt errs dls
    have harg : ∀ j : Nat, attempt + Nat.succ j = attempt + 1 + j := by omega
    have hrange : List.range (m + 1) = 0 :: (List.range m).map Nat.succ :=
      List.range_succ_eq_map m
    have hcompR :
        ((fun j => attemptReason (oracle (attempt + j))) ∘ Nat.succ) =
          (fun j => attemptReason (oracle (attempt + 1 + j))) := by
      funext j
      rw [Function.comp_apply, harg j]
    have hcompF :
        ((fun j => if attempt + j < attempts - 1 then some (1 : Nat) else none) ∘
            Nat.succ) =
          (fun j => if attempt + 1 + j < attempts - 1 then some (1 : Nat) else none) := by
      funext j
      rw [Function.comp_apply, harg j]
    have hmap :
        (List.range (m + 1)).map (fun j => attemptReason (oracle (attempt + j))) =
          attemptReason (oracle attempt) ::
            (List.range m).map (fun j => attemptReason (oracle (attempt + 1 + j))) := by
      simp only [hrange, List.map_cons, List.map_map, Nat.add_zero, hcompR]
    have hfilter :
        (List.range (m + 1)).filterMap
            (fun j => if attempt + j < attempts - 1 then some (1 : Nat) else none) =
          (if attempt < attempts - 1 then [(1 : Nat)] else []) ++
            (List.range m).filterMap
              (fun j => if attempt + 1 + j < attempts - 1 then some (1 : Nat) else none) := by
      simp only [hrange, List.filterMap_cons, List.filterMap_map, Nat.add_zero, hcompF]
      by_cases hlt : attempt < attempts - 1
      · rw [if_pos hlt, if_pos hlt]
        rfl
      · rw [if_neg hlt, if_neg hlt]
        rfl
    cases horacle : oracle attempt with
    | ok response =>
      have hne : ¬ response.status_code = 200 := by
        have := hf attempt
        rw [horacle] at this
        simpa [isFailure] using this
      simp only [fetchGo, horacle, if_neg hne]
      rw [ih]
      have hreason : "Status code: " ++ toString response.status_code =
          attemptReason (oracle attempt) := by
        rw [horacle]
        rfl
      simp only [FetchTrace.mk.injEq, true_and]
      refine ⟨?_, by omega, ?_⟩
      · rw [hmap, hreason, List.append_assoc]
        rfl
      · rw [hfilter]
        by_cases hlt : attempt < attempts - 1
        · rw [if_pos hlt, if_pos hlt, List.append_assoc]
        · rw [if_neg hlt, if_neg hlt, List.nil_append]
    | exn e =>
      simp only [fetchGo, horacle]
      rw [ih]
      have hreason : "Error: " ++ e = attemptReason (oracle attempt) := by
        rw [horacle]
        rfl
      simp only [FetchTrace.mk.injEq, true_and]
      refine ⟨?_, by omega, ?_⟩
      · rw [hmap, hreason, List.append_assoc]
        rfl
      · rw [hfilter]
        by_cases hlt : attempt < attempts - 1
        · rw [if_pos hlt, if_pos hlt, List.append_assoc]
        · rw [if_neg hlt, if_neg hlt, List.nil_append]

lemma filterMap_const_one (n : Nat) :
    (List.range n).filterMap
        (fun j => if j < n - 1 then some (1 : Nat) else none) =
      List.replicate (n - 1) 1 := by
  cases n with
  | zero => rfl
  | succ m =>
    have hall : ∀ l : List Nat, (∀ j ∈ l, j < m) →
        l.filterMap (fun j => if j < m + 1 - 1 then some (1 : Nat) else none) =
          List.replicate l.length 1 := by
      intro l
      induction l with
      | nil => intro _; rfl
      | cons a t iht =>
        intro hmem
        have ha : a < m + 1 - 1 := by
          have := hmem a (by simp)
          omega
        rw [List.filterMap_cons, if_pos ha, iht (fun j hj => hmem j (by simp [hj]))]
        rfl
    have h1 : List.range (m + 1) = List.range m ++ [m] := by
      rw [List.range_succ]
    rw [h1, List.filterMap_append]
    have h2 := hall (List.range m) (fun j hj => List.mem_range.mp hj)
    rw [h2, List.length_range]
    have h3 : ¬ (m < m + 1 - 1) := by omega
    simp only [List.filterMap_cons, if_neg h3]
    simp

lemma fetch_run_allFail (oracle : Nat → AttemptResult) (attempts : Nat)
    (hf : ∀ k, isFailure (oracle k) = true) :
    fetch_run oracle attempts =
      ⟨none,
       (List.range attempts).map (fun k => attemptReason (oracle k)),
       attempts,
       List.replicate (attempts - 1) 1⟩ := by
  unfold fetch_run
  rw [fetchGo_allFail oracle attempts hf attempts 0]
  simp only [List.nil_append, Nat.zero_add]
  rw [filterMap_const_one]


lemma pySplit_ne_nil (sep : Char) (s : PyStr) : pySplit sep s ≠ [] := by
  induction s with
  | nil => simp [pySplit]
  | cons c rest ih =>
    simp only [pySplit]
    cases h : pySplit sep rest with
    | nil => simp
    | cons hh tt => by_cases hc : c = sep <;> simp [hc]

lemma pySplit_not_mem (sep : Char) (s : PyStr) (h : sep ∉ s) :
    pySplit sep s = [s] := by
  induction s with
  | nil => rfl
  | cons c rest ih =>
    have hc : c ≠ sep := fun he => h (he ▸ List.mem_cons_self c rest)
    have hrest : sep ∉ rest := fun hm => h (List.mem_cons_of_mem c hm)
    simp only [pySplit, ih hrest]
    rw [if_neg hc]

lemma pySplit_cons_sep (sep : Char) (rest : PyStr) :
    pySplit sep (sep :: rest) = [] :: pySplit sep rest := by
  simp only [pySplit]
  cases h : pySplit sep rest with
  | nil => exact absurd h (pySplit_ne_nil sep rest)
  | cons hh tt => simp

lemma pySplit_append_sep (sep : Char) (l rest : PyStr) (h : sep ∉ l) :
    pySplit sep (l ++ sep :: rest) = l :: pySplit sep rest := by
  induction l with
  | nil => simpa using pySplit_cons_sep sep rest
  | cons c l2 ih =>
    have hc : c ≠ sep := fun he => h (he ▸ List.mem_cons_self c l2)
    have hl2 : sep ∉ l2 := fun hm => h (List.mem_cons_of_mem c hm)
    have hstep : pySplit sep (c :: (l2 ++ sep :: rest)) =
        match pySplit sep (l2 ++ sep :: rest) with
        | [] => [[]]
        | h :: t => if c = sep then [] :: h :: t else (c :: h) :: t := rfl
    rw [List.cons_append, hstep, ih hl2]
    dsimp only
    rw [if_neg hc]

lemma pySplit_pyJoin (sep : Char) :
    ∀ ls : List PyStr, ls ≠ [] → (∀ l ∈ ls, sep ∉ l) →
      pySplit sep (pyJoin sep ls) = ls := by
  intro ls
  induction ls with
  | nil => intro h; exact absurd rfl h
  | cons l ls2 ih =>
    intro _ hmem
    cases ls2 with
    | nil =>
      exact pySplit_not_mem sep l (hmem l (List.mem_cons_self l []))
    | cons l2 rest =>
      have h1 : sep ∉ l := hmem l (List.mem_cons_self l (l2 :: rest))
      have h2 : ∀ x ∈ l2 :: rest, sep ∉ x :=
        fun x hx => hmem x (List.mem_cons_of_mem l hx)
      calc pySplit sep (pyJoin sep (l :: l2 :: rest))
          = pySplit sep (l ++ sep :: pyJoin sep (l2 :: rest)) := rfl
        _ = l :: pySplit sep (pyJoin sep (l2 :: rest)) :=
            pySplit_append_sep sep l _ h1
        _ = l :: l2 :: rest := by rw [ih (by simp) h2]

lemma mem_pySplit_not_sep (sep : Char) :
    ∀ (s : PyStr) (l : PyStr), l ∈ pySplit sep s → sep ∉ l := by
  intro s
  induction s with
  | nil =>
    intro l hl
    simp [pySplit] at hl
    simp [hl]
  | cons c rest ih =>
    intro l hl
    simp only [pySplit] at hl
    cases h : pySplit sep rest with
    | nil => exact absurd h (pySplit_ne_nil sep rest)
    | cons hh tt =>
      rw [h] at hl
      dsimp only at hl
      by_cases hc : c = sep
      · rw [if_pos hc] at hl
        rcases List.mem_cons.mp hl with h1 | h2
        · simp [h1]
        · exact ih l (h ▸ h2)
      · rw [if_neg hc] at hl
        rcases List.mem_cons.mp hl with h1 | h2
        · subst h1
          intro hm
          rcases List.mem_cons.mp hm with h3 | h4
          · exact hc h3.symm
          · exact ih hh (h ▸ List.mem_cons_self hh tt) h4
        · exact ih l (h ▸ List.mem_cons_of_mem hh h2)

lemma mem_pySplit_chars (sep : Char) :
    ∀ (s : PyStr) (l : PyStr) (c : Char), l ∈ pySplit sep s → c ∈ l → c ∈ s := by
  intro s
  induction s with
  | nil =>
    intro l c hl hc
    simp [pySplit] at hl
    subst hl
    simp at hc
  | cons a rest ih =>
    intro l c hl hc
    simp only [pySplit] at hl
    cases h : pySplit sep rest with
    | nil => exact absurd h (pySplit_ne_nil sep rest)
    | cons hh tt =>
      rw [h] at hl
      dsimp only at hl
      by_cases ha : a = sep
      · rw [if_pos ha] at hl
        rcases List.mem_cons.mp hl with h1 | h2
        · subst h1; simp at hc
        · exact List.mem_cons_of_mem a (ih l c (h ▸ h2) hc)
      · rw [if_neg ha] at hl
        rcases List.mem_cons.mp hl with h1 | h2
        · subst h1
          rcases List.mem_cons.mp hc with h3 | h4
          · simp [h3]
          · exact List.mem_cons_of_mem a
              (ih hh c (h ▸ List.mem_cons_self hh tt) h4)
        · exact List.mem_cons_of_mem a (ih l c (h ▸ List.mem_cons_of_mem hh h2) hc)

lemma getLastD_mem {α : Type} :
    ∀ (xs : List α) (d : α), xs ≠ [] → xs.getLastD d ∈ xs := by
  intro xs
  induction xs with
  | nil => intro d h; exact absurd rfl h
  | cons a t ih =>
    intro d _
    cases t with
    | nil => simp [List.getLastD]
    | cons b t2 =>
      have := ih a (by simp)
      exact List.mem_cons_of_mem a this

lemma mem_pyStrip (c : Char) (s : PyStr) (h : c ∈ pyStrip s) : c ∈ s := by
  unfold pyStrip at h
  rw [List.mem_reverse] at h
  have h2 := (List.dropWhile_sublist _).subset h
  rw [List.mem_reverse] at h2
  exact (List.dropWhile_sublist _).subset h2

lemma mem_dropWhile_of_not (p : Char → Bool) :
    ∀ (l : PyStr) (c : Char), c ∈ l → p c = false → c ∈ l.dropWhile p := by
  intro l
  induction l with
  | nil => intro c hc; simp at hc
  | cons a t ih =>
    intro c hc hp
    rcases List.mem_cons.mp hc with h1 | h2
    · subst h1
      rw [List.dropWhile_cons, hp]
      simp
    · rw [List.dropWhile_cons]
      by_cases ha : p a = true
      · rw [if_pos ha]
        exact ih c h2 hp
      · rw [if_neg ha]
        exact List.mem_cons_of_mem a h2

lemma mem_pyStrip_of_not_ws (c : Char) (s : PyStr) (hc : c ∈ s)
    (hw : c.isWhitespace = false) : c ∈ pyStrip s := by
  unfold pyStrip
  rw [List.mem_reverse]
  apply mem_dropWhile_of_not _ _ _ _ hw
  rw [List.mem_reverse]
  exact mem_dropWhile_of_not _ _ _ hc hw

lemma mem_pyLast_pySplit (sep : Char) (s : PyStr) (c : Char)
    (h : c ∈ pyLast (pySplit sep s)) : c ∈ s := by
  unfold pyLast at h
  have hne := pySplit_ne_nil sep s
  have hmem := getLastD_mem (pySplit sep s) [] hne
  exact mem_pySplit_chars sep s _ c hmem h

lemma rewrite_line_no_nl (line : PyStr) (h : '\n' ∉ line) :
    '\n' ∉ rewrite_playlist_line line := by
  unfold rewrite_playlist_line
  split
  · exact h
  · split
    · intro hm
      rcases List.mem_append.mp hm with h1 | h2
      · exact absurd h1 (by decide)
      · exact h (mem_pyStrip '\n' line (mem_pyLast_pySplit '/' (pyStrip line) '\n' h2))
    · split
      · intro hm
        rcases List.mem_append.mp hm with h1 | h2
        · exact absurd h1 (by decide)
        · exact h (mem_pyStrip '\n' line h2)
      · exact h

lemma rewrite_playlist_split (t : PyStr) :
    pySplit '\n' (rewrite_playlist t) = (pySplit '\n' t).map rewrite_playlist_line := by
  unfold rewrite_playlist
  apply pySplit_pyJoin
  · simp only [ne_eq, List.map_eq_nil_iff]
    exact pySplit_ne_nil '\n' t
  · intro l hl
    rcases List.mem_map.mp hl with ⟨l0, hl0, heq⟩
    rw [← heq]
    exact rewrite_line_no_nl l0 (mem_pySplit_not_sep '\n' t l0 hl0)

lemma http_line_shape (line : PyStr)
    (h : pyStartsWith ("http".toList) line = true) :
    ∃ rest, line = 'h' :: rest := by
  have hlist : "http".toList = ['h', 't', 't', 'p'] := by decide
  rw [pyStartsWith, hlist] at h
  cases line with
  | nil => simp [List.isPrefixOf] at h
  | cons c rest =>
    refine ⟨rest, ?_⟩
    simp only [List.isPrefixOf, Bool.and_eq_true, beq_iff_eq] at h
    rw [h.1]

lemma startsWith_http_not_hash (line : PyStr)
    (h : pyStartsWith ("http".toList) line = true) :
    pyStartsWith ("#".toList) line = false := by
  obtain ⟨rest, hr⟩ := http_line_shape line h
  subst hr
  have hlist : "#".toList = ['#'] := by decide
  rw [pyStartsWith, hlist]
  simp [List.isPrefixOf]

lemma pyStrip_nil_http_false (line : PyStr) (h : pyStrip line = []) :
    pyStartsWith ("http".toList) line = false := by
  cases hsw : pyStartsWith ("http".toList) line with
  | false => rfl
  | true =>
    obtain ⟨rest, hr⟩ := http_line_shape line hsw
    subst hr
    have h1 : 'h' ∈ pyStrip ('h' :: rest) :=
      mem_pyStrip_of_not_ws 'h' _ (by simp) (by decide)
    rw [h] at h1
    simp at h1

lemma dictGet_dictInsert_isSome {α : Type} (d : List (String × α))
    (k k2 : String) (v : α) (h : (dictGet d k).isSome = true) :
    (dictGet (dictInsert d k2 v) k).isSome = true := by
  induction d with
  | nil => simp [dictGet] at h
  | cons p rest ih =>
    obtain ⟨k3, v3⟩ := p
    simp only [dictGet] at h
    simp only [dictInsert]
    by_cases h32 : k3 = k2
    · rw [if_pos h32]
      simp only [dictGet]
      by_cases h2k : k2 = k
      · rw [if_pos h2k]
        simp
      · rw [if_neg h2k]
        have h3k : ¬ k3 = k := fun he => h2k (h32 ▸ he)
        rw [if_neg h3k] at h
        exact h
    · rw [if_neg h32]
      simp only [dictGet]
      by_cases h3k : k3 = k
      · rw [if_pos h3k]
        simp
      · rw [if_neg h3k]
        rw [if_neg h3k] at h
        exact ih h

lemma proxy_segment_cache_mono (cache : List (String × SegEntry))
    (segment_id : String) (now : Int) (oracle : Nat → AttemptResult) (k : String)
    (h : (dictGet cache k).isSome = true) :
    (dictGet (proxy_segment cache segment_id now oracle).2 k).isSome = true := by
  unfold proxy_segment proxy_segment_fetch
  cases hget : dictGet cache segment_id with
  | some e =>
    dsimp only
    by_cases ht : now - e.timestamp ≤ CACHE_EXPIRY
    · rw [if_pos ht]
      exact h
    · rw [if_neg ht]
      cases hfetch : fetch_with_retry oracle MAX_RETRIES with
      | some r =>
        dsimp only
        exact dictGet_dictInsert_isSome cache k segment_id _ h
      | none => exact h
  | none =>
    dsimp only
    cases hfetch : fetch_with_retry oracle MAX_RETRIES with
    | some r =>
      dsimp only
      exact dictGet_dictInsert_isSome cache k segment_id _ h
    | none => exact h

lemma runSegmentRequests_mono :
    ∀ (reqs : List (String × Int × (Nat → AttemptResult)))
      (cache : List (String × SegEntry)) (k : String),
      (dictGet cache k).isSome = true →
      (dictGet (runSegmentRequests cache reqs) k).isSome = true := by
  intro reqs
  induction reqs with
  | nil => intro cache k h; exact h
  | cons req rest ih =>
    intro cache k h
    obtain ⟨segment_id, now, oracle⟩ := req
    exact ih _ k (proxy_segment_cache_mono cache segment_id now oracle k h)

lemma tryDirect_mem (directO : Nat → NetResult) :
    ∀ (urls : List String) (i : Nat) (u : String),
      tryDirect directO urls i = some u → u ∈ urls := by
  intro urls
  induction urls with
  | nil => intro i u h; simp [tryDirect] at h
  | cons url rest ih =>
    intro i u h
    simp only [tryDirect] at h
    cases hd : directO i with
    | exn m =>
      rw [hd] at h
      exact List.mem_cons_of_mem url (ih (i + 1) u h)
    | resp status text =>
      rw [hd] at h
      dsimp only at h
      by_cases hc : (decide (status = 200) && text.startsWith "#EXTM3U") = true
      · rw [if_pos hc] at h
        simp at h
        simp [h]
      · rw [if_neg hc] at h
        exact List.mem_cons_of_mem url (ih (i + 1) u h)

lemma tryDirect_none (directO : Nat → NetResult)
    (hfail : ∀ i, directFailed (directO i)) :
    ∀ (urls : List String) (i : Nat), tryDirect directO urls i = none := by
  intro urls
  induction urls with
  | nil => intro i; rfl
  | cons url rest ih =>
    intro i
    simp only [tryDirect]
    cases hd : directO i with
    | exn m => exact ih (i + 1)
    | resp status text =>
      dsimp only
      have hf := hfail i
      rw [hd] at hf
      unfold directFailed at hf
      rw [if_neg (by simp [hf])]
      exact ih (i + 1)

/-- Claim C3, counterexample.  The claim says the failure value returned by
the fetcher carries the full ordered list of per-attempt failure reasons.
It does not: two all-failing runs with different per-attempt reasons return
the very same value `none`, while their internally recorded reason lists
differ — so the returned failure value cannot carry the reasons. -/
theorem C3_counterexample :
    fetch_with_retry (fun _ => .exn "connection reset") 3 =
      fetch_with_retry (fun _ => .exn "timed out") 3
  ∧ fetch_with_retry (fun _ => .exn "connection reset") 3 = none
  ∧ (fetch_run (fun _ => .exn "connection reset") 3).errors ≠
      (fetch_run (fun _ => .exn "timed out") 3).errors :=
  ⟨by decide, by decide, by decide⟩

/-- Claim C3, amended.  `fetch_with_retry` takes a single URL (there is no
candidate-URL list, so the candidate factor is 1): when every attempt fails
it returns `None` after exactly `attempts` attempts, and the per-attempt
failure reasons are accumulated, in attempt order, only in a local list that
is not part of the returned value. -/
theorem C3_retry_exhaustion (oracle : Nat → AttemptResult) (attempts : Nat)
    (hf : ∀ k, isFailure (oracle k) = true) :
    fetch_with_retry oracle attempts = none
  ∧ (fetch_run oracle attempts).attemptsMade = attempts
  ∧ (fetch_run oracle attempts).errors =
      (List.range attempts).map (fun k => attemptReason (oracle k)) := by
  refine ⟨?_, ?_, ?_⟩ <;>
    simp [fetch_with_retry, fetch_run_allFail oracle attempts hf]

/-- Claim C3, witness: the amended theorem applied to a fetcher that raises
on all three attempts. -/
theorem C3_witness :
    fetch_with_retry (fun _ => .exn "boom") 3 = none
  ∧ (fetch_run (fun _ => .exn "boom") 3).attemptsMade = 3
  ∧ (fetch_run (fun _ => .exn "boom") 3).errors =
      (List.range 3).map (fun k => attemptReason ((fun _ => .exn "boom") k)) :=
  C3_retry_exhaustion (fun _ => .exn "boom") 3 (fun _ => rfl)

/-- Claim C4, counterexample.  The claim says the delay before retry `k` is
`k × baseDelay`, growing linearly.  The code sleeps a constant 1 second
between attempts: an all-failing 3-attempt run records delays `[1, 1]`,
whereas the spec's linear schedule with the code's base delay of 1 second
would be `[1, 2]`. -/
theorem C4_counterexample :
    (fetch_run (fun _ => .ok ⟨500, "err", none⟩) 3).delays = [1, 1]
  ∧ specLinearDelays 1 3 = [1, 2]
  ∧ ([1, 1] : List Nat) ≠ [1, 2] :=
  ⟨by decide, by decide, by decide⟩

/-- Claim C4, amended.  The delay between consecutive attempts is the
constant 1 second (`asyncio.sleep(1)`), not a linearly growing backoff: an
all-failing run of `attempts` attempts sleeps `attempts - 1` times, 1 second
each. -/
theorem C4_constant_delay (oracle : Nat → AttemptResult) (attempts : Nat)
    (hf : ∀ k, isFailure (oracle k) = true) :
    (fetch_run oracle attempts).delays = List.replicate (attempts - 1) 1 := by
  rw [fetch_run_allFail oracle attempts hf]

/-- Claim C4, witness: the amended theorem applied to a fetcher that returns
status 500 on all three attempts. -/
theorem C4_witness :
    (fetch_run (fun _ => .ok ⟨500, "err", none⟩) 3).delays =
      List.replicate (3 - 1) 1 :=
  C4_constant_delay (fun _ => .ok ⟨500, "err", none⟩) 3 (fun _ => rfl)

/-- Claim C9: `fetch_with_retry` is total at its interface — every transport
fault is caught (the embedding is a total function of the attempt oracle) —
and its result is either `None` or a response whose status code is exactly
200; it never returns a non-200 response. -/
theorem C9_fetch_total (oracle : Nat → AttemptResult) (attempts : Nat)
    (r : HResponse) (h : fetch_with_retry oracle attempts = some r) :
    r.status_code = 200 :=
  fetchGo_result_200 oracle attempts attempts 0 [] [] r h

/-- Claim C9, witness: a first-attempt 200 response is returned and the
theorem reports its status as 200. -/
theorem C9_witness :
    fetch_with_retry (fun _ => .ok ⟨200, "segdata", none⟩) 3 =
      some ⟨200, "segdata", none⟩
  ∧ (⟨200, "segdata", none⟩ : HResponse).status_code = 200 :=
  ⟨by decide, C9_fetch_total (fun _ => .ok ⟨200, "segdata", none⟩) 3 _ (by decide)⟩
/-- Claim C1, counterexample.  The claim says a segment request whose
upstream fetch fails on every attempt, but for which a stale cache entry
exists, is answered with the stale payload.  In the code the segment cache
is consulted only when fresh: with entry "seg001.ts" stored at time 0,
requested at time 1000 (age 1000 > 120 = TTL) and the origin returning 500
on every attempt, the handler returns the 503 error response, whose body is
not the stale payload. -/
theorem C1_counterexample :
    (proxy_segment [("seg001.ts", ⟨"STALEPAYLOAD", "video/mp2t", 0⟩)]
        "seg001.ts" 1000 (fun _ => .ok ⟨500, "upstream error", none⟩)).1 =
      ⟨503, "Failed to get segment", none⟩
  ∧ ("Failed to get segment" : String) ≠ "STALEPAYLOAD" :=
  ⟨by decide, by decide⟩

/-- Claim C1, amended.  When every fetch attempt fails and the cached entry
for the segment is stale (age strictly greater than `CACHE_EXPIRY`), the
segment handler returns the 503 error response: stale segment cache entries
are never served. -/
theorem C1_stale_returns_error (cache : List (String × SegEntry))
    (segment_id : String) (now : Int) (oracle : Nat → AttemptResult)
    (e : SegEntry) (hget : dictGet cache segment_id = some e)
    (hstale : now - e.timestamp > CACHE_EXPIRY)
    (hf : ∀ k, isFailure (oracle k) = true) :
    (proxy_segment cache segment_id now oracle).1 =
      ⟨503, "Failed to get segment", none⟩ := by
  have hfetch : fetch_with_retry oracle MAX_RETRIES = none := by
    simp [fetch_with_retry, fetch_run_allFail oracle MAX_RETRIES hf]
  simp only [proxy_segment, hget]
  rw [if_neg (by omega : ¬ now - e.timestamp ≤ CACHE_EXPIRY)]
  simp [proxy_segment_fetch, hfetch]

/-- Claim C1, witness: the amended theorem applied to the concrete stale
cache and all-failing origin of the counterexample. -/
theorem C1_witness :
    (proxy_segment [("seg001.ts", ⟨"STALEPAYLOAD", "video/mp2t", 0⟩)]
        "seg001.ts" 999 (fun _ => .exn "conn refused")).1 =
      ⟨503, "Failed to get segment", none⟩ :=
  C1_stale_returns_error [("seg001.ts", ⟨"STALEPAYLOAD", "video/mp2t", 0⟩)]
    "seg001.ts" 999 (fun _ => .exn "conn refused")
    ⟨"STALEPAYLOAD", "video/mp2t", 0⟩ (by decide) (by decide) (fun _ => rfl)

/-- Claim C2: a cached segment entry is served (without fetching) exactly
when `now - storedAt ≤ CACHE_EXPIRY`, and the playlist handler skips the
refresh exactly when the `"main"` entry satisfies
`now - storedAt ≤ PLAYLIST_REFRESH_INTERVAL`. -/
theorem C2_ttl_iff (scache : List (String × SegEntry))
    (pcache : List (String × PlaylistEntry)) (segment_id : String) (now : Int)
    (e : SegEntry) (pe : PlaylistEntry) (oracle : Nat → AttemptResult)
    (hseg : dictGet scache segment_id = some e)
    (hpl : dictGet pcache "main" = some pe) :
    (segment_cache_hit scache segment_id now = true ↔
      now - e.timestamp ≤ CACHE_EXPIRY)
  ∧ (now - e.timestamp ≤ CACHE_EXPIRY →
      (proxy_segment scache segment_id now oracle).1 =
        ⟨200, e.content, some e.content_type⟩)
  ∧ (refresh_needed pcache now = false ↔
      now - pe.timestamp ≤ PLAYLIST_REFRESH_INTERVAL) := by
  refine ⟨?_, ?_, ?_⟩
  · simp [segment_cache_hit, hseg]
  · intro hfresh
    simp only [proxy_segment, hseg]
    rw [if_pos hfresh]
  · simp only [refresh_needed, hpl, decide_eq_false_iff_not]
    omega

/-- Claim C2, witness: a fresh entry (age 50 ≤ 120) is served from the
segment cache, and a playlist entry of age 50 > 5 forces a refresh. -/
theorem C2_witness :
    (segment_cache_hit [("s.ts", ⟨"DATA", "video/mp2t", 0⟩)] "s.ts" 50 = true ↔
      (50 : Int) - 0 ≤ CACHE_EXPIRY)
  ∧ ((50 : Int) - 0 ≤ CACHE_EXPIRY →
      (proxy_segment [("s.ts", ⟨"DATA", "video/mp2t", 0⟩)] "s.ts" 50
          (fun _ => .exn "unused")).1 = ⟨200, "DATA", some "video/mp2t"⟩)
  ∧ (refresh_needed [("main", ⟨"PLAYLIST", 0⟩)] 50 = false ↔
      (50 : Int) - 0 ≤ PLAYLIST_REFRESH_INTERVAL) :=
  C2_ttl_iff [("s.ts", ⟨"DATA", "video/mp2t", 0⟩)] [("main", ⟨"PLAYLIST", 0⟩)]
    "s.ts" 50 ⟨"DATA", "video/mp2t", 0⟩ ⟨"PLAYLIST", 0⟩ (fun _ => .exn "unused")
    (by decide) (by decide)

/-- Claim C7, counterexample.  The claim says segment requests consult a
per-category fallback store after stale-cache failure.  No such store
exists: after a successful fetch of "segA.ts" leaves its payload in the
process, a failing request for "segB.ts" still returns the fixed 503 error
body rather than any previously fetched payload. -/
theorem C7_counterexample :
    (proxy_segment
        (proxy_segment [] "segA.ts" 10
          (fun _ => .ok ⟨200, "PAYLOADA", some "video/mp2t"⟩)).2
        "segB.ts" 20 (fun _ => .ok ⟨500, "err", none⟩)).1 =
      ⟨503, "Failed to get segment", none⟩
  ∧ ("Failed to get segment" : String) ≠ "PAYLOADA" :=
  ⟨by decide, by decide⟩

/-- Claim C7, amended.  The code maintains no fallback store: every response
of the segment handler is exactly one of (a) the fresh cached entry, (b) the
body just fetched, or (c) the fixed 503 error — there is no substitute-serve
outcome. -/
theorem C7_no_fallback_store (cache : List (String × SegEntry))
    (segment_id : String) (now : Int) (oracle : Nat → AttemptResult) :
    (∃ e, dictGet cache segment_id = some e ∧
        now - e.timestamp ≤ CACHE_EXPIRY ∧
        (proxy_segment cache segment_id now oracle).1 =
          ⟨200, e.content, some e.content_type⟩)
  ∨ (∃ r, fetch_with_retry oracle MAX_RETRIES = some r ∧
        (proxy_segment cache segment_id now oracle).1 =
          ⟨200, r.body, some (r.content_type.getD "application/octet-stream")⟩)
  ∨ (proxy_segment cache segment_id now oracle).1 =
      ⟨503, "Failed to get segment", none⟩ := by
  cases hget : dictGet cache segment_id with
  | some e =>
    by_cases ht : now - e.timestamp ≤ CACHE_EXPIRY
    · refine Or.inl ⟨e, rfl, ht, ?_⟩
      simp only [proxy_segment, hget]
      rw [if_pos ht]
    · cases hfetch : fetch_with_retry oracle MAX_RETRIES with
      | some r =>
        refine Or.inr (Or.inl ⟨r, rfl, ?_⟩)
        simp only [proxy_segment, hget]
        rw [if_neg ht]
        simp [proxy_segment_fetch, hfetch]
      | none =>
        refine Or.inr (Or.inr ?_)
        simp only [proxy_segment, hget]
        rw [if_neg ht]
        simp [proxy_segment_fetch, hfetch]
  | none =>
    cases hfetch : fetch_with_retry oracle MAX_RETRIES with
    | some r =>
      refine Or.inr (Or.inl ⟨r, rfl, ?_⟩)
      simp [proxy_segment, hget, proxy_segment_fetch, hfetch]
    | none =>
      refine Or.inr (Or.inr ?_)
      simp [proxy_segment, hget, proxy_segment_fetch, hfetch]

/-- Claim C8, counterexample.  The claim says writes followed by an eviction
pass leave at most `maxEntries` entries with expired ones removed first.  No
eviction exists anywhere in the code: after three successful stores at time
0, a read at time 1000 finds all three entries still present (cache size 3),
entry "a.ts" still retrievable, yet already expired (the freshness test
rejects it) — expired entries are never removed and no bound is enforced. -/
theorem C8_counterexample :
    (runSegmentRequests []
        [("a.ts", 0, fun _ => .ok ⟨200, "PAYLOADA", some "video/mp2t"⟩),
         ("b.ts", 0, fun _ => .ok ⟨200, "PAYLOADB", some "video/mp2t"⟩),
         ("c.ts", 0, fun _ => .ok ⟨200, "PAYLOADC", some "video/mp2t"⟩)]).length = 3
  ∧ dictGet (runSegmentRequests []
        [("a.ts", 0, fun _ => .ok ⟨200, "PAYLOADA", some "video/mp2t"⟩),
         ("b.ts", 0, fun _ => .ok ⟨200, "PAYLOADB", some "video/mp2t"⟩),
         ("c.ts", 0, fun _ => .ok ⟨200, "PAYLOADC", some "video/mp2t"⟩)]) "a.ts" =
      some ⟨"PAYLOADA", "video/mp2t", 0⟩
  ∧ segment_cache_hit (runSegmentRequests []
        [("a.ts", 0, fun _ => .ok ⟨200, "PAYLOADA", some "video/mp2t"⟩),
         ("b.ts", 0, fun _ => .ok ⟨200, "PAYLOADB", some "video/mp2t"⟩),
         ("c.ts", 0, fun _ => .ok ⟨200, "PAYLOADC", some "video/mp2t"⟩)]) "a.ts" 1000 =
      false :=
  ⟨by decide, by decide, by decide⟩

/-- Claim C8, amended.  The segment cache is an unbounded dict with no
eviction: across any sequence of segment requests, an entry present in the
cache is never removed (it can only be overwritten), so neither an entry
bound nor expiry-removal ever holds. -/
theorem C8_no_eviction (cache : List (String × SegEntry))
    (reqs : List (String × Int × (Nat → AttemptResult))) (k : String)
    (h : (dictGet cache k).isSome = true) :
    (dictGet (runSegmentRequests cache reqs) k).isSome = true :=
  runSegmentRequests_mono reqs cache k h

/-- Claim C8, witness: an entry stored at time 0 survives a later failing
request for another segment. -/
theorem C8_witness :
    (dictGet (runSegmentRequests [("a.ts", ⟨"X", "video/mp2t", 0⟩)]
        [("b.ts", 1000, fun _ => .exn "down")]) "a.ts").isSome = true :=
  C8_no_eviction [("a.ts", ⟨"X", "video/mp2t", 0⟩)]
    [("b.ts", 1000, fun _ => .exn "down")] "a.ts" (by decide)

/-- Claim C5, counterexample.  The claim says every non-directive reference
line is replaced using the last path segment (the filename), including
relative references containing path separators.  For the relative line
"sub/seg1.ts" the code uses the whole stripped line, producing
"/proxy/segment/sub/seg1.ts", while the claim's filename rule would produce
"/proxy/segment/seg1.ts". -/
theorem C5_counterexample :
    rewrite_playlist_line ("sub/seg1.ts".toList) =
      "/proxy/segment/sub/seg1.ts".toList
  ∧ "/proxy/segment/".toList ++ pyLast (pySplit '/' (pyStrip ("sub/seg1.ts".toList))) =
      "/proxy/segment/seg1.ts".toList
  ∧ ("/proxy/segment/sub/seg1.ts".toList : PyStr) ≠
      "/proxy/segment/seg1.ts".toList :=
  ⟨by decide, by decide, by decide⟩

/-- Claim C5, amended.  A line starting with `http` is replaced by a
proxy-local reference built from the last `/`-separated component of the
stripped line; any other non-directive, non-blank line is replaced by a
proxy-local reference built from the entire stripped line — not from its
last path segment. -/
theorem C5_reference_rewrite (line : PyStr) :
    (pyStartsWith ("http".toList) line = true →
      rewrite_playlist_line line =
        "/proxy/segment/".toList ++ pyLast (pySplit '/' (pyStrip line)))
  ∧ (pyStartsWith ("#".toList) line = false →
      pyStartsWith ("http".toList) line = false →
      pyStrip line ≠ [] →
      rewrite_playlist_line line = "/proxy/segment/".toList ++ pyStrip line) := by
  constructor
  · intro hhttp
    have hhash := startsWith_http_not_hash line hhttp
    unfold rewrite_playlist_line
    rw [if_neg (by rw [hhash]; exact Bool.false_ne_true), if_pos hhttp]
  · intro hhash hhttp hne
    unfold rewrite_playlist_line
    rw [if_neg (by rw [hhash]; exact Bool.false_ne_true),
      if_neg (by rw [hhttp]; exact Bool.false_ne_true),
      if_pos (by rw [hhash]; simp [hne])]

/-- Claim C5, witness: the amended theorem applied to an absolute URL line
and to a bare relative line. -/
theorem C5_witness :
    rewrite_playlist_line ("http://host/a/seg7.ts".toList) =
      "/proxy/segment/".toList ++
        pyLast (pySplit '/' (pyStrip ("http://host/a/seg7.ts".toList)))
  ∧ rewrite_playlist_line ("media0.ts".toList) =
      "/proxy/segment/".toList ++ pyStrip ("media0.ts".toList) :=
  ⟨(C5_reference_rewrite ("http://host/a/seg7.ts".toList)).1 (by decide),
   (C5_reference_rewrite ("media0.ts".toList)).2 (by decide) (by decide)
     (by decide)⟩

/-- Claim C6: splitting the rewritten playlist on the same separator yields
exactly the per-line rewrites of the input's lines — the same number of
lines, none added, merged or dropped — with directive lines (`#...`) and
blank (whitespace-only) lines passed through unchanged. -/
theorem C6_line_count (t : PyStr) :
    pySplit '\n' (rewrite_playlist t) = (pySplit '\n' t).map rewrite_playlist_line
  ∧ (pySplit '\n' (rewrite_playlist t)).length = (pySplit '\n' t).length
  ∧ (∀ l, pyStartsWith ("#".toList) l = true → rewrite_playlist_line l = l)
  ∧ (∀ l, pyStrip l = [] → rewrite_playlist_line l = l) := by
  have hsplit := rewrite_playlist_split t
  refine ⟨hsplit, by rw [hsplit, List.length_map], ?_, ?_⟩
  · intro l hl
    unfold rewrite_playlist_line
    rw [if_pos hl]
  · intro l hl
    have hhttp := pyStrip_nil_http_false l hl
    cases hhash : pyStartsWith ("#".toList) l with
    | true =>
      unfold rewrite_playlist_line
      rw [if_pos hhash]
    | false =>
      unfold rewrite_playlist_line
      rw [if_neg (by rw [hhash]; exact Bool.false_ne_true),
        if_neg (by rw [hhttp]; exact Bool.false_ne_true),
        if_neg (by rw [hl]; simp)]

/-- Claim C6, witness: the theorem applied to a concrete playlist with a
directive, an absolute URL, a blank line and a relative reference, plus the
directive and blank cases instantiated. -/
theorem C6_witness :
    pySplit '\n' (rewrite_playlist ("#EXTM3U\nhttp://h/a.ts\n\nrel.ts".toList)) =
      (pySplit '\n' ("#EXTM3U\nhttp://h/a.ts\n\nrel.ts".toList)).map
        rewrite_playlist_line
  ∧ rewrite_playlist_line ("#EXTINF:4,".toList) = "#EXTINF:4,".toList
  ∧ rewrite_playlist_line ("  ".toList) = "  ".toList :=
  ⟨(C6_line_count ("#EXTM3U\nhttp://h/a.ts\n\nrel.ts".toList)).1,
   (C6_line_count ("#EXTM3U\nhttp://h/a.ts\n\nrel.ts".toList)).2.2.1
     ("#EXTINF:4,".toList) (by decide),
   (C6_line_count ("#EXTM3U\nhttp://h/a.ts\n\nrel.ts".toList)).2.2.2
     ("  ".toList) (by decide)⟩

/-- Claim C10: `find_working_stream_url` always returns a non-empty string —
its final statement returns `DIRECT_STREAM_URLS[0]` — so the playlist
handler's `not stream_url` guard is always false and its 503 branch for a
missing stream URL is unreachable; in particular, when the URL cache is
cold, every direct candidate fails and iframe extraction yields nothing, the
result is exactly the first direct URL. -/
theorem C10_fallback_url (cache : StreamUrlCache) (now : Int)
    (directO : Nat → NetResult) (iframeO : NetResult)
    (extractO : String → Option String) (verifyO : String → NetResult) :
    playlist_url_guard
        (find_working_stream_url cache now directO iframeO extractO verifyO).1 =
      false
  ∧ ((truthyStr cache.url && decide (now - cache.timestamp < 300)) = false →
      (∀ i, directFailed (directO i)) →
      (∀ html, extractO html = none) →
      (find_working_stream_url cache now directO iframeO extractO verifyO).1 =
        "https://redx.embedxt.site/index.m3u8") := by
  constructor
  · unfold find_working_stream_url playlist_url_guard
    by_cases hcached :
        (truthyStr cache.url && decide (now - cache.timestamp < 300)) = true
    · rw [if_pos hcached]
      have h1 : truthyStr cache.url = true := (Bool.and_elim_left hcached)
      cases hu : cache.url with
      | none => rw [hu] at h1; simp [truthyStr] at h1
      | some s =>
        rw [hu] at h1
        simp only [truthyStr, decide_eq_true_eq] at h1
        simpa using h1
    · rw [if_neg hcached]
      cases htry : tryDirect directO DIRECT_STREAM_URLS 0 with
      | some url =>
        have hmem := tryDirect_mem directO DIRECT_STREAM_URLS 0 url htry
        dsimp only
        simp only [DIRECT_STREAM_URLS, List.mem_cons, List.mem_singleton] at hmem
        rcases hmem with h1 | h1 | h1
        · subst h1; rfl
        · subst h1; rfl
        · simp at h1
      | none =>
        dsimp only
        cases iframeO with
        | exn m => rfl
        | resp status html =>
          dsimp only
          by_cases hs : status = 200
          · rw [if_pos hs]
            cases hex : extractO html with
            | none => rfl
            | some su =>
              dsimp only
              by_cases hsu : su = ""
              · rw [if_neg (fun hne => hne hsu : ¬ su ≠ "")]
                rfl
              · rw [if_pos (hsu : su ≠ "")]
                cases verifyO su with
                | exn m => rfl
                | resp vs vt =>
                  dsimp only
                  by_cases hv : (decide (vs = 200) && vt.startsWith "#EXTM3U") = true
                  · rw [if_pos hv]
                    simpa using hsu
                  · rw [if_neg hv]
                    rfl
          · rw [if_neg hs]
            rfl
  · intro hcold hdirect hextract
    unfold find_working_stream_url
    rw [if_neg (by simp [hcold])]
    rw [tryDirect_none directO hdirect DIRECT_STREAM_URLS 0]
    cases iframeO with
    | exn m => rfl
    | resp status html =>
      dsimp only
      by_cases hs : status = 200
      · rw [if_pos hs, hextract html]
        rfl
      · rw [if_neg hs]
        rfl

/-- Claim C10, witness: with a cold URL cache, all probes raising and
extraction yielding nothing, the guard is false and the result is the first
direct URL. -/
theorem C10_witness :
    playlist_url_guard
        (find_working_stream_url ⟨none, 0⟩ 0 (fun _ => .exn "net down")
          (.exn "net down") (fun _ => none) (fun _ => .exn "net down")).1 =
      false
  ∧ (find_working_stream_url ⟨none, 0⟩ 0 (fun _ => .exn "net down")
        (.exn "net down") (fun _ => none) (fun _ => .exn "net down")).1 =
      "https://redx.embedxt.site/index.m3u8" :=
  ⟨(C10_fallback_url ⟨none, 0⟩ 0 (fun _ => .exn "net down") (.exn "net down")
      (fun _ => none) (fun _ => .exn "net down")).1,
   (C10_fallback_url ⟨none, 0⟩ 0 (fun _ => .exn "net down") (.exn "net down")
      (fun _ => none) (fun _ => .exn "net down")).2 (by decide)
     (fun i => trivial) (fun html => rfl)⟩
